import Mathlib

/-!
Shallow embedding of sunpy/util/cond_dispatch.py: a conditional-dispatch
registry that routes a call to a handler by signature matching, optional
positional type constraints, and user conditions.

Python callables are modelled as a `PyFun`: the raw result of
`inspect.getargspec` (parameter names, variadic-positional name,
variadic-named name, tuple of default values), a bound-method flag, and
the call behaviour itself, given as a function of an abstract `World`
parameter (the ambient mutable state a Python callable may read) plus the
positional and named arguments.  Python exceptions are modelled by the
`Except PyErr` monad with one constructor per distinct raise site.
-/

/-- Python values, restricted to the fragment the dispatch logic inspects. -/
inductive PyVal where
  | none
  | int (n : Int)
  | str (s : String)
deriving DecidableEq, BEq, Repr

/-- The distinct exceptions raised by cond_dispatch.py: KeyError from
`kw[name]` in arginize, ValueError from arginize's variadic check,
ValueError from add's signature comparison, and the two TypeErrors
raised at the end of `__call__` (distinguished by their messages). -/
inductive PyErr where
  | keyError (name : String)
  | valueErrorArginize
  | valueErrorSigMismatch
  | typeErrorNoMatch
  | typeErrorNoCondition
deriving DecidableEq, Repr

/-- Classes usable as isinstance targets in type-constraint lists. -/
inductive PyType where
  | object
  | intT
  | strT
  | noneT
deriving DecidableEq, Repr

/-- isinstance on the modelled value/class fragment. -/
def isinstance (v : PyVal) (t : PyType) : Bool :=
  match t with
  | PyType.object => true
  | PyType.intT => match v with | PyVal.int _ => true | _ => false
  | PyType.strT => match v with | PyVal.str _ => true | _ => false
  | PyType.noneT => match v with | PyVal.none => true | _ => false

/-- Python truthiness of the modelled values. -/
def truthy : PyVal → Bool
  | PyVal.none => false
  | PyVal.int n => !(n == 0)
  | PyVal.str s => !(s == "")

/-- The ambient state a Python callable may observe when invoked. -/
abbrev World := Nat

/-- Named (keyword) arguments of a call: unique string keys paired with values. -/
abbrev KwArgs := List (String × PyVal)

/-- Result of `inspect.getargspec`: formal parameter names, the name of a
`*args` parameter if any, the name of a `**kwargs` parameter if any, and
the tuple of default values (applying to the trailing parameters). -/
structure ArgSpec where
  args : List String
  varargs : Option String
  keywords : Option String
  defaults : Option (List PyVal)
deriving DecidableEq, Repr

/-- A Python callable: its raw argspec, whether it is a bound method, and
its call behaviour. -/
structure PyFun where
  spec : ArgSpec
  ismethod : Bool
  call : World → List PyVal → KwArgs → PyVal

/-- correct_argspec: remove the first argument if the callable is a bound
method. -/
def correct_argspec (f : PyFun) : ArgSpec :=
  if f.ismethod then { f.spec with args := f.spec.args.tail } else f.spec

/-- Python set inclusion, on lists viewed as sets. -/
def subsetB (l r : List PyVal) : Bool :=
  l.all (fun x => r.contains x)

/-- Python proper-superset test `l > r`, on lists viewed as sets. -/
def properSupersetB (l r : List PyVal) : Bool :=
  subsetB r l && ! subsetB l r

/-- matches_signature: check whether fun can be called with `a` as args and
`kw` as kwargs.  Follows the source line by line; note that `defs` is the
set of default VALUES (Python `set(defaults)`), which the source compares
against the set of remaining parameter NAMES via `rest > defs`. -/
def matches_signature (f : PyFun) (a : List PyVal) (kw : KwArgs) : Bool :=
  let s := correct_argspec f
  if s.varargs.isNone && decide (s.args.length < a.length) then false
  else
    let skw : List String := kw.map Prod.fst
    let sargs : List String := s.args.drop a.length
    if s.keywords.isNone && skw.any (fun k => ! sargs.contains k) then false
    else
      let rest : List String := sargs.filter (fun n => ! skw.contains n)
      let defs : List PyVal := s.defaults.getD []
      if properSupersetB (rest.map PyVal.str) defs then false else true

/-- Lookup of a named argument, `kw[name]` on the success path. -/
def kwGet (kw : KwArgs) (n : String) : Option PyVal :=
  (kw.find? (fun p => p.1 == n)).map Prod.snd

/-- The list comprehension `[kw[name] for name in names]`: evaluated left to
right, raising KeyError at the first missing name. -/
def kwLookupList (kw : KwArgs) : List String → Except PyErr (List PyVal)
  | [] => Except.ok []
  | n :: ns =>
    match kwGet kw n with
    | some v =>
      match kwLookupList kw ns with
      | Except.ok vs => Except.ok (v :: vs)
      | Except.error e => Except.error e
    | Option.none => Except.error (PyErr.keyError n)

/-- arginize: turn args and kwargs into args by considering the function
signature.  Raises ValueError for variadic callables; for the remaining
formal names it looks each up in the actual named arguments (KeyError when
absent — defaults are never consulted). -/
def arginize (f : PyFun) (a : List PyVal) (kw : KwArgs) :
    Except PyErr (List PyVal) :=
  let s := correct_argspec f
  if s.varargs.isSome || s.keywords.isSome then Except.error PyErr.valueErrorArginize
  else
    match kwLookupList kw (s.args.drop a.length) with
    | Except.error err => Except.error err
    | Except.ok rest => Except.ok (a ++ rest)

/-- matches_types: all isinstance checks over `izip(arginize(...), types)`
(the truncating zip). -/
def matches_types (f : PyFun) (types : List PyType) (a : List PyVal)
    (kw : KwArgs) : Except PyErr Bool :=
  match arginize f a kw with
  | Except.error err => Except.error err
  | Except.ok bound =>
    Except.ok ((bound.zip types).all (fun p => isinstance p.1 p.2))

/-- An entry of self.funcs: (fun, condition, types). -/
structure CondEntry where
  func : PyFun
  condition : PyFun
  types : Option (List PyType)

/-- An entry of self.nones: (fun, types). -/
structure NoneEntry where
  func : PyFun
  types : Option (List PyType)

/-- The two ordered lists held by a ConditionalDispatch object. -/
structure ConditionalDispatch where
  funcs : List CondEntry
  nones : List NoneEntry

/-- The empty registry produced by ConditionalDispatch.__init__. -/
def emptyCD : ConditionalDispatch := ⟨[], []⟩

/-- ConditionalDispatch.add: no condition appends to self.nones with no
validation at all; with a condition, the full corrected argspecs of fun and
condition must be equal, else ValueError is raised and nothing is appended. -/
def ConditionalDispatch.add (self : ConditionalDispatch) (f : PyFun)
    (condition : Option PyFun) (types : Option (List PyType)) :
    Except PyErr ConditionalDispatch :=
  match condition with
  | Option.none =>
    Except.ok { self with nones := self.nones ++ [⟨f, types⟩] }
  | some c =>
    if correct_argspec f ≠ correct_argspec c then
      Except.error PyErr.valueErrorSigMismatch
    else
      Except.ok { self with funcs := self.funcs ++ [⟨f, c, types⟩] }

/-- The per-entry guard of `__call__`: matches_signature short-circuits,
then matches_types runs only when a type list is present (and may raise). -/
def entryGate (f : PyFun) (types : Option (List PyType)) (a : List PyVal)
    (kw : KwArgs) : Except PyErr Bool :=
  if matches_signature f a kw then
    match types with
    | Option.none => Except.ok true
    | some ts => matches_types f ts a kw
  else
    Except.ok false

/-- The first loop of `__call__` over self.funcs, threading the `matched`
flag.  Returns the chosen handler's result, or the final flag when the
loop runs through. -/
def runFuncs : List CondEntry → World → List PyVal → KwArgs → Bool →
    Except PyErr (PyVal ⊕ Bool)
  | [], _, _, _, matched => Except.ok (Sum.inr matched)
  | e :: rest, w, a, kw, matched =>
    match entryGate e.func e.types a kw with
    | Except.error err => Except.error err
    | Except.ok false => runFuncs rest w a kw matched
    | Except.ok true =>
      if truthy (e.condition.call w a kw) then
        Except.ok (Sum.inl (e.func.call w a kw))
      else
        runFuncs rest w a kw true

/-- The second loop of `__call__` over self.nones. -/
def runNones : List NoneEntry → World → List PyVal → KwArgs →
    Except PyErr (Option PyVal)
  | [], _, _, _ => Except.ok Option.none
  | e :: rest, w, a, kw =>
    match entryGate e.func e.types a kw with
    | Except.error err => Except.error err
    | Except.ok false => runNones rest w a kw
    | Except.ok true => Except.ok (some (e.func.call w a kw))

/-- ConditionalDispatch.__call__. -/
def dcall (self : ConditionalDispatch) (w : World) (a : List PyVal)
    (kw : KwArgs) : Except PyErr PyVal :=
  match runFuncs self.funcs w a kw false with
  | Except.error err => Except.error err
  | Except.ok (Sum.inl v) => Except.ok v
  | Except.ok (Sum.inr matched) =>
    match runNones self.nones w a kw with
    | Except.error err => Except.error err
    | Except.ok (some v) => Except.ok v
    | Except.ok Option.none =>
      if matched then Except.error PyErr.typeErrorNoCondition
      else Except.error PyErr.typeErrorNoMatch

/-- State-threaded form of the first loop of `__call__`: the registry value
is carried through every step and returned, so that its preservation is a
statement about the recursion rather than a definitional accident. -/
def runFuncsSt : List CondEntry → ConditionalDispatch → World → List PyVal →
    KwArgs → Bool → Except PyErr (PyVal ⊕ Bool) × ConditionalDispatch
  | [], d, _, _, _, matched => (Except.ok (Sum.inr matched), d)
  | e :: rest, d, w, a, kw, matched =>
    match entryGate e.func e.types a kw with
    | Except.error err => (Except.error err, d)
    | Except.ok false => runFuncsSt rest d w a kw matched
    | Except.ok true =>
      if truthy (e.condition.call w a kw) then
        (Except.ok (Sum.inl (e.func.call w a kw)), d)
      else
        runFuncsSt rest d w a kw true

/-- State-threaded form of the second loop of `__call__`. -/
def runNonesSt : List NoneEntry → ConditionalDispatch → World → List PyVal →
    KwArgs → Except PyErr (Option PyVal) × ConditionalDispatch
  | [], d, _, _, _ => (Except.ok Option.none, d)
  | e :: rest, d, w, a, kw =>
    match entryGate e.func e.types a kw with
    | Except.error err => (Except.error err, d)
    | Except.ok false => runNonesSt rest d w a kw
    | Except.ok true => (Except.ok (some (e.func.call w a kw)), d)

/-- State-threaded ConditionalDispatch.__call__: result paired with the
registry value after the invocation. -/
def dcallSt (self : ConditionalDispatch) (w : World) (a : List PyVal)
    (kw : KwArgs) : Except PyErr PyVal × ConditionalDispatch :=
  match runFuncsSt self.funcs self w a kw false with
  | (Except.error err, d2) => (Except.error err, d2)
  | (Except.ok (Sum.inl v), d2) => (Except.ok v, d2)
  | (Except.ok (Sum.inr matched), d2) =>
    match runNonesSt self.nones d2 w a kw with
    | (Except.error err, d3) => (Except.error err, d3)
    | (Except.ok (some v), d3) => (Except.ok v, d3)
    | (Except.ok Option.none, d3) =>
      if matched then (Except.error PyErr.typeErrorNoCondition, d3)
      else (Except.error PyErr.typeErrorNoMatch, d3)

/-- One registration request: the arguments of one call to add. -/
structure RegReq where
  func : PyFun
  condition : Option PyFun
  types : Option (List PyType)

/-- Perform a sequence of registrations in order, stopping at the first
failing add (the raised exception aborts the registering program). -/
def buildE : ConditionalDispatch → List RegReq → Except PyErr ConditionalDispatch
  | d, [] => Except.ok d
  | d, r :: rs =>
    match d.add r.func r.condition r.types with
    | Except.error e => Except.error e
    | Except.ok d2 => buildE d2 rs

/-- The conditioned entries of a registration sequence, in order. -/
def condOf : List RegReq → List CondEntry
  | [] => []
  | r :: rs =>
    match r.condition with
    | some c => ⟨r.func, c, r.types⟩ :: condOf rs
    | Option.none => condOf rs

/-- The unconditioned entries of a registration sequence, in order. -/
def nonesOf : List RegReq → List NoneEntry
  | [] => []
  | r :: rs =>
    match r.condition with
    | some _ => nonesOf rs
    | Option.none => ⟨r.func, r.types⟩ :: nonesOf rs

/-- Boolean projection of an entry gate: did it evaluate to a pass?
(Errors count as no pass.) -/
def gateB (f : PyFun) (types : Option (List PyType)) (a : List PyVal)
    (kw : KwArgs) : Bool :=
  match entryGate f types a kw with
  | Except.ok b => b
  | Except.error _ => false

/-- A conditioned entry fires on a call: its gates pass and its condition,
evaluated on the original call arguments, is truthy. -/
def firesCond (e : CondEntry) (w : World) (a : List PyVal) (kw : KwArgs) : Bool :=
  gateB e.func e.types a kw && truthy (e.condition.call w a kw)

/-- An unconditioned entry fires on a call: its gates pass. -/
def firesNone (e : NoneEntry) (a : List PyVal) (kw : KwArgs) : Bool :=
  gateB e.func e.types a kw

/-- The names of the defaulted parameters of an argspec: defaults apply to
the trailing parameters. -/
def defaultedNames (s : ArgSpec) : List String :=
  match s.defaults with
  | Option.none => []
  | some ds => s.args.drop (s.args.length - ds.length)

/-- Modelled from the spec: the signature tuple the specification says
registration compares — `(paramNames, defaulted, hasVariadicPositional,
hasVariadicNamed)` after receiver-stripping.  Stated only to be compared
with what the source actually compares (the full argspec). -/
def specSigTuple (f : PyFun) : List String × List String × Bool × Bool :=
  let s := correct_argspec f
  (s.args, defaultedNames s, s.varargs.isSome, s.keywords.isSome)

/-- A callable whose observable behaviour does not depend on the ambient
state: the modelled notion of purity. -/
def IsPure (f : PyFun) : Prop :=
  ∀ w w' a kw, f.call w a kw = f.call w' a kw

/-- A call behaviour that ignores everything and returns None. -/
def retNone : World → List PyVal → KwArgs → PyVal := fun _ _ _ => PyVal.none

/-- Handler with signature f(x, y=10). -/
def funXY : PyFun := ⟨⟨["x", "y"], Option.none, Option.none, some [PyVal.int 10]⟩, false, retNone⟩

/-- Handler with signature f(*a). -/
def funVar : PyFun := ⟨⟨[], some "a", Option.none, Option.none⟩, false, retNone⟩

/-- Handler with signature f(x=1). -/
def funD1 : PyFun := ⟨⟨["x"], Option.none, Option.none, some [PyVal.int 1]⟩, false, retNone⟩

/-- Handler with signature f(x=2). -/
def funD2 : PyFun := ⟨⟨["x"], Option.none, Option.none, some [PyVal.int 2]⟩, false, retNone⟩

/-- Handler with signature f(x=10). -/
def funXdef : PyFun := ⟨⟨["x"], Option.none, Option.none, some [PyVal.int 10]⟩, false, retNone⟩

/-- Condition with signature c(x=10), always returning a truthy value. -/
def condXdef : PyFun := ⟨⟨["x"], Option.none, Option.none, some [PyVal.int 10]⟩, false, fun _ _ _ => PyVal.int 1⟩

/-- Handler with signature g(x=10), returning 42. -/
def funG : PyFun := ⟨⟨["x"], Option.none, Option.none, some [PyVal.int 10]⟩, false, fun _ _ _ => PyVal.int 42⟩

/-- Conditioned entry whose type gate raises KeyError on the empty call. -/
def entC5a : CondEntry := ⟨funXdef, condXdef, some [PyType.intT]⟩

/-- Conditioned entry that fires on the empty call. -/
def entC5b : CondEntry := ⟨funG, condXdef, Option.none⟩

/-- Registry holding entC5a before entC5b. -/
def dC5 : ConditionalDispatch := ⟨[entC5a, entC5b], []⟩

/-- Registry holding one unconditioned entry whose type gate raises. -/
def dC4 : ConditionalDispatch := ⟨[], [⟨funXdef, some [PyType.intT]⟩]⟩

/-- Did an Except-valued computation complete without raising? -/
def exOk {α : Type} : Except PyErr α → Bool
  | Except.ok _ => true
  | Except.error _ => false

instance {ε α : Type} [DecidableEq ε] [DecidableEq α] : DecidableEq (Except ε α) :=
  fun x y =>
    match x, y with
    | Except.ok a, Except.ok b =>
      if h : a = b then Decidable.isTrue (by rw [h])
      else Decidable.isFalse (fun hc => h (Except.ok.inj hc))
    | Except.error a, Except.error b =>
      if h : a = b then Decidable.isTrue (by rw [h])
      else Decidable.isFalse (fun hc => h (Except.error.inj hc))
    | Except.ok _, Except.error _ => Decidable.isFalse (fun hc => Except.noConfusion hc)
    | Except.error _, Except.ok _ => Decidable.isFalse (fun hc => Except.noConfusion hc)

/-- Handler h(x) returning 7, independent of the ambient state. -/
def funPure : PyFun :=
  ⟨⟨["x"], Option.none, Option.none, Option.none⟩, false, fun _ _ _ => PyVal.int 7⟩

/-- Condition c(x) returning a truthy value, independent of the ambient state. -/
def condPure : PyFun :=
  ⟨⟨["x"], Option.none, Option.none, Option.none⟩, false, fun _ _ _ => PyVal.int 1⟩

/-- Registry with the single pure conditioned entry (funPure, condPure). -/
def dC7 : ConditionalDispatch := ⟨[⟨funPure, condPure, Option.none⟩], []⟩

theorem exOk_iff {α : Type} (x : Except PyErr α) :
    exOk x = true ↔ ∃ v, x = Except.ok v := by
  cases x <;> simp [exOk]

theorem kwLookupList_isOk (kw : KwArgs) :
    ∀ ns : List String, exOk (kwLookupList kw ns) = true ↔
      ∀ n ∈ ns, (kwGet kw n).isSome = true := by
  intro ns
  induction ns with
  | nil => simp [kwLookupList, exOk]
  | cons n ns ih =>
    cases hg : kwGet kw n with
    | none =>
      constructor
      · intro h
        rw [kwLookupList, hg] at h
        simp [exOk] at h
      · intro h
        have := h n (List.mem_cons_self n ns)
        rw [hg] at this
        simp at this
    | some v =>
      cases hr : kwLookupList kw ns with
      | error e =>
        rw [hr] at ih
        constructor
        · intro h
          rw [kwLookupList, hg, hr] at h
          simp [exOk] at h
        · intro h
          have h2 : ∀ m ∈ ns, (kwGet kw m).isSome = true :=
            fun m hm => h m (List.mem_cons_of_mem n hm)
          have := ih.mpr h2
          simp [exOk] at this
      | ok vs =>
        rw [hr] at ih
        constructor
        · intro _ m hm
          rcases List.mem_cons.mp hm with hm | hm
          · subst hm; rw [hg]; rfl
          · exact ih.mp rfl m hm
        · intro _
          rw [kwLookupList, hg, hr]
          rfl

theorem kwLookupList_all_some (kw : KwArgs) :
    ∀ ns : List String, (∀ n ∈ ns, (kwGet kw n).isSome = true) →
      kwLookupList kw ns = Except.ok (ns.filterMap (fun n => kwGet kw n)) := by
  intro ns
  induction ns with
  | nil => intro _; simp [kwLookupList]
  | cons n ns ih =>
    intro h
    have hn : (kwGet kw n).isSome = true := h n (List.mem_cons_self n ns)
    cases hg : kwGet kw n with
    | none => rw [hg] at hn; exact absurd hn (by simp)
    | some v =>
      have hrest := ih (fun m hm => h m (List.mem_cons_of_mem n hm))
      simp [kwLookupList, hg, hrest, List.filterMap_cons]

theorem zip_take_self {α β : Type} :
    ∀ (l : List α) (l2 : List β), l.zip l2 = l.zip (l2.take l.length) := by
  intro l
  induction l with
  | nil => intro l2; simp
  | cons x l ih =>
    intro l2
    cases l2 with
    | nil => simp
    | cons y l2 => simp [List.zip_cons_cons, List.take, ih l2]

theorem gateB_eq_true_iff (f : PyFun) (t : Option (List PyType)) (a : List PyVal)
    (kw : KwArgs) : gateB f t a kw = true ↔ entryGate f t a kw = Except.ok true := by
  cases hg : entryGate f t a kw with
  | error e => simp [gateB, hg]
  | ok b => cases b <;> simp [gateB, hg]

theorem gate_ok_false_iff (f : PyFun) (t : Option (List PyType)) (a : List PyVal)
    (kw : KwArgs) : entryGate f t a kw = Except.ok false ↔
      (exOk (entryGate f t a kw) = true ∧ gateB f t a kw = false) := by
  cases hg : entryGate f t a kw with
  | error e => simp [gateB, exOk, hg]
  | ok b => cases b <;> simp [gateB, exOk, hg]

theorem kwLookupList_error_shape (kw : KwArgs) :
    ∀ (ns : List String) (err : PyErr), kwLookupList kw ns = Except.error err →
      ∃ n, err = PyErr.keyError n := by
  intro ns
  induction ns with
  | nil => intro err h; simp [kwLookupList] at h
  | cons n ns ih =>
    intro err h
    cases hg : kwGet kw n with
    | none =>
      rw [kwLookupList, hg] at h
      exact ⟨n, (Except.error.inj h).symm⟩
    | some v =>
      rw [kwLookupList, hg] at h
      cases hr : kwLookupList kw ns with
      | error e =>
        rw [hr] at h
        have : err = e := (Except.error.inj h).symm
        subst this
        exact ih _ hr
      | ok vs => rw [hr] at h; simp at h

theorem arginize_error_shape (f : PyFun) (a : List PyVal) (kw : KwArgs)
    (err : PyErr) (h : arginize f a kw = Except.error err) :
    err = PyErr.valueErrorArginize ∨ ∃ n, err = PyErr.keyError n := by
  rw [arginize] at h
  by_cases hv : ((correct_argspec f).varargs.isSome || (correct_argspec f).keywords.isSome) = true
  · rw [if_pos hv] at h
    exact Or.inl (Except.error.inj h).symm
  · rw [if_neg hv] at h
    cases hr : kwLookupList kw ((correct_argspec f).args.drop a.length) with
    | error e =>
      rw [hr] at h
      have : err = e := (Except.error.inj h).symm
      subst this
      exact Or.inr (kwLookupList_error_shape kw _ _ hr)
    | ok vs => rw [hr] at h; simp at h

theorem matches_types_error_shape (f : PyFun) (ts : List PyType) (a : List PyVal)
    (kw : KwArgs) (err : PyErr) (h : matches_types f ts a kw = Except.error err) :
    err = PyErr.valueErrorArginize ∨ ∃ n, err = PyErr.keyError n := by
  rw [matches_types] at h
  cases ha : arginize f a kw with
  | error e =>
    rw [ha] at h
    have : err = e := (Except.error.inj h).symm
    subst this
    exact arginize_error_shape f a kw _ ha
  | ok bound => rw [ha] at h; simp at h

theorem entryGate_error_shape (f : PyFun) (t : Option (List PyType)) (a : List PyVal)
    (kw : KwArgs) (err : PyErr) (h : entryGate f t a kw = Except.error err) :
    err = PyErr.valueErrorArginize ∨ ∃ n, err = PyErr.keyError n := by
  unfold entryGate at h
  by_cases hs : matches_signature f a kw = true
  · rw [if_pos hs] at h
    cases t with
    | none => simp at h
    | some ts => exact matches_types_error_shape f ts a kw err h
  · rw [if_neg hs] at h; simp at h

theorem runFuncs_error_mem (w : World) (a : List PyVal) (kw : KwArgs) :
    ∀ (l : List CondEntry) (m : Bool) (err : PyErr),
      runFuncs l w a kw m = Except.error err →
      ∃ e ∈ l, entryGate e.func e.types a kw = Except.error err := by
  intro l
  induction l with
  | nil => intro m err h; simp [runFuncs] at h
  | cons e l ih =>
    intro m err h
    cases hg : entryGate e.func e.types a kw with
    | error e2 =>
      rw [runFuncs, hg] at h
      simp only [Except.error.injEq] at h
      exact ⟨e, List.mem_cons_self e l, by rw [hg, h]⟩
    | ok b =>
      cases b with
      | false =>
        rw [runFuncs, hg] at h
        obtain ⟨e2, he2, hg2⟩ := ih m err h
        exact ⟨e2, List.mem_cons_of_mem e he2, hg2⟩
      | true =>
        rw [runFuncs, hg] at h
        cases ht : truthy (e.condition.call w a kw) with
        | true => rw [if_pos ht] at h; simp at h
        | false =>
          rw [if_neg (by simp [ht])] at h
          obtain ⟨e2, he2, hg2⟩ := ih true err h
          exact ⟨e2, List.mem_cons_of_mem e he2, hg2⟩

theorem runNones_error_mem (w : World) (a : List PyVal) (kw : KwArgs) :
    ∀ (l : List NoneEntry) (err : PyErr),
      runNones l w a kw = Except.error err →
      ∃ e ∈ l, entryGate e.func e.types a kw = Except.error err := by
  intro l
  induction l with
  | nil => intro err h; simp [runNones] at h
  | cons e l ih =>
    intro err h
    cases hg : entryGate e.func e.types a kw with
    | error e2 =>
      rw [runNones, hg] at h
      simp only [Except.error.injEq] at h
      exact ⟨e, List.mem_cons_self e l, by rw [hg, h]⟩
    | ok b =>
      cases b with
      | false =>
        rw [runNones, hg] at h
        obtain ⟨e2, he2, hg2⟩ := ih err h
        exact ⟨e2, List.mem_cons_of_mem e he2, hg2⟩
      | true => rw [runNones, hg] at h; simp at h

theorem runFuncs_fallthrough (w : World) (a : List PyVal) (kw : KwArgs) :
    ∀ (l : List CondEntry) (m m' : Bool),
      runFuncs l w a kw m = Except.ok (Sum.inr m') ↔
        ((∀ e ∈ l, exOk (entryGate e.func e.types a kw) = true ∧
            firesCond e w a kw = false)
          ∧ m' = (m || l.any (fun e => gateB e.func e.types a kw))) := by
  intro l
  induction l with
  | nil =>
    intro m m'
    simp only [runFuncs, List.not_mem_nil, List.any_nil, Bool.or_false,
      Except.ok.injEq, Sum.inr.injEq]
    constructor
    · intro h; exact ⟨fun e he => absurd he (by simp), h.symm⟩
    · intro h; exact h.2.symm
  | cons e l ih =>
    intro m m'
    cases hg : entryGate e.func e.types a kw with
    | error e2 =>
      constructor
      · intro h
        rw [runFuncs, hg] at h
        simp at h
      · intro h
        have h1 := (h.1 e (List.mem_cons_self e l)).1
        rw [hg] at h1
        simp [exOk] at h1
    | ok b =>
      have hsgate : exOk (entryGate e.func e.types a kw) = true := by
        rw [hg]; rfl
      cases b with
      | false =>
        have hgb : gateB e.func e.types a kw = false := by
          rw [gateB, hg]
        have hfires : firesCond e w a kw = false := by
          rw [firesCond, hgb]; rfl
        have hstep : runFuncs (e :: l) w a kw m = runFuncs l w a kw m := by
          rw [runFuncs, hg]
        rw [hstep, ih m m']
        simp only [List.forall_mem_cons, List.any_cons, hgb, Bool.false_or,
          hsgate, hfires, true_and, and_true]
      | true =>
        have hgb : gateB e.func e.types a kw = true := by
          rw [gateB, hg]
        cases ht : truthy (e.condition.call w a kw) with
        | true =>
          have hfires : firesCond e w a kw = true := by
            rw [firesCond, hgb, ht]; rfl
          have hstep : runFuncs (e :: l) w a kw m =
              Except.ok (Sum.inl (e.func.call w a kw)) := by
            rw [runFuncs, hg, if_pos ht]
          rw [hstep]
          constructor
          · intro h; simp at h
          · intro h
            have := (h.1 e (List.mem_cons_self e l)).2
            rw [hfires] at this
            simp at this
        | false =>
          have hfires : firesCond e w a kw = false := by
            rw [firesCond, hgb, ht]; rfl
          have hstep : runFuncs (e :: l) w a kw m = runFuncs l w a kw true := by
            rw [runFuncs, hg, if_neg (by simp [ht])]
          rw [hstep, ih true m']
          simp only [List.forall_mem_cons, List.any_cons, hgb, Bool.true_or,
            Bool.or_true, hsgate, hfires, true_and, and_true]

theorem runNones_fallthrough (w : World) (a : List PyVal) (kw : KwArgs) :
    ∀ l : List NoneEntry,
      runNones l w a kw = Except.ok Option.none ↔
        ∀ e ∈ l, exOk (entryGate e.func e.types a kw) = true ∧
          firesNone e a kw = false := by
  intro l
  induction l with
  | nil => simp [runNones]
  | cons e l ih =>
    cases hg : entryGate e.func e.types a kw with
    | error e2 =>
      constructor
      · intro h
        rw [runNones, hg] at h
        simp at h
      · intro h
        have h1 := (h e (List.mem_cons_self e l)).1
        rw [hg] at h1
        simp [exOk] at h1
    | ok b =>
      have hsgate : exOk (entryGate e.func e.types a kw) = true := by
        rw [hg]; rfl
      cases b with
      | false =>
        have hgb : firesNone e a kw = false := by
          rw [firesNone, gateB, hg]
        have hstep : runNones (e :: l) w a kw = runNones l w a kw := by
          rw [runNones, hg]
        rw [hstep, ih]
        simp only [List.forall_mem_cons, hsgate, hgb, true_and, and_true]
      | true =>
        have hgb : firesNone e a kw = true := by
          rw [firesNone, gateB, hg]
        have hstep : runNones (e :: l) w a kw =
            Except.ok (some (e.func.call w a kw)) := by
          rw [runNones, hg]
        rw [hstep]
        constructor
        · intro h; simp at h
        · intro h
          have := (h e (List.mem_cons_self e l)).2
          rw [hgb] at this
          simp at this

theorem runFuncs_find (w : World) (a : List PyVal) (kw : KwArgs) :
    ∀ (l : List CondEntry) (m : Bool),
      (∀ e ∈ l, exOk (entryGate e.func e.types a kw) = true) →
      runFuncs l w a kw m =
        match l.find? (fun e => firesCond e w a kw) with
        | some e => Except.ok (Sum.inl (e.func.call w a kw))
        | Option.none =>
          Except.ok (Sum.inr (m || l.any (fun e => gateB e.func e.types a kw))) := by
  intro l
  induction l with
  | nil => intro m h; simp [runFuncs]
  | cons e l ih =>
    intro m h
    have hsg := h e (List.mem_cons_self e l)
    have hrest : ∀ e2 ∈ l, exOk (entryGate e2.func e2.types a kw) = true :=
      fun e2 he2 => h e2 (List.mem_cons_of_mem e he2)
    obtain ⟨b, hg⟩ := (exOk_iff _).mp hsg
    cases b with
    | false =>
      have hgb : gateB e.func e.types a kw = false := by rw [gateB, hg]
      have hfires : firesCond e w a kw = false := by rw [firesCond, hgb]; rfl
      rw [runFuncs, hg, List.find?_cons_of_neg _ (by simp [hfires]), ih m hrest]
      cases hf : l.find? (fun e2 => firesCond e2 w a kw) with
      | some e2 => rfl
      | none => simp [List.any_cons, hgb]
    | true =>
      have hgb : gateB e.func e.types a kw = true := by rw [gateB, hg]
      cases ht : truthy (e.condition.call w a kw) with
      | true =>
        have hfires : firesCond e w a kw = true := by rw [firesCond, hgb, ht]; rfl
        rw [runFuncs, hg, if_pos ht, List.find?_cons_of_pos _ (by simp [hfires])]
      | false =>
        have hfires : firesCond e w a kw = false := by rw [firesCond, hgb, ht]; rfl
        rw [runFuncs, hg, if_neg (by simp [ht]),
          List.find?_cons_of_neg _ (by simp [hfires]), ih true hrest]
        cases hf : l.find? (fun e2 => firesCond e2 w a kw) with
        | some e2 => rfl
        | none => simp [List.any_cons, hgb]

theorem runNones_find (w : World) (a : List PyVal) (kw : KwArgs) :
    ∀ l : List NoneEntry,
      (∀ e ∈ l, exOk (entryGate e.func e.types a kw) = true) →
      runNones l w a kw =
        match l.find? (fun e => firesNone e a kw) with
        | some e => Except.ok (some (e.func.call w a kw))
        | Option.none => Except.ok Option.none := by
  intro l
  induction l with
  | nil => intro h; simp [runNones]
  | cons e l ih =>
    intro h
    have hsg := h e (List.mem_cons_self e l)
    have hrest : ∀ e2 ∈ l, exOk (entryGate e2.func e2.types a kw) = true :=
      fun e2 he2 => h e2 (List.mem_cons_of_mem e he2)
    obtain ⟨b, hg⟩ := (exOk_iff _).mp hsg
    cases b with
    | false =>
      have hfires : firesNone e a kw = false := by rw [firesNone, gateB, hg]
      rw [runNones, hg, List.find?_cons_of_neg _ (by simp [hfires]), ih hrest]
    | true =>
      have hfires : firesNone e a kw = true := by rw [firesNone, gateB, hg]
      rw [runNones, hg, List.find?_cons_of_pos _ (by simp [hfires])]

theorem buildE_ok :
    ∀ (reqs : List RegReq) (d0 d : ConditionalDispatch),
      buildE d0 reqs = Except.ok d →
      d.funcs = d0.funcs ++ condOf reqs ∧ d.nones = d0.nones ++ nonesOf reqs := by
  intro reqs
  induction reqs with
  | nil =>
    intro d0 d h
    rw [buildE] at h
    have : d0 = d := Except.ok.inj h
    subst this
    simp [condOf, nonesOf]
  | cons r rs ih =>
    intro d0 d h
    rw [buildE] at h
    cases hc : r.condition with
    | none =>
      rw [hc] at h
      have h2 : buildE { d0 with nones := d0.nones ++ [⟨r.func, r.types⟩] } rs =
          Except.ok d := h
      obtain ⟨h3, h4⟩ := ih _ d h2
      constructor
      · rw [h3]; simp [condOf, hc]
      · rw [h4]; simp [nonesOf, hc]
    | some c =>
      rw [hc] at h
      by_cases he : correct_argspec r.func = correct_argspec c
      · have hadd : ConditionalDispatch.add d0 r.func (some c) r.types =
            Except.ok { d0 with funcs := d0.funcs ++ [⟨r.func, c, r.types⟩] } := by
          simp [ConditionalDispatch.add, he]
        rw [hadd] at h
        have h2 : buildE { d0 with funcs := d0.funcs ++ [⟨r.func, c, r.types⟩] } rs =
            Except.ok d := h
        obtain ⟨h3, h4⟩ := ih _ d h2
        constructor
        · rw [h3]; simp [condOf, hc]
        · rw [h4]; simp [nonesOf, hc]
      · have hadd : ConditionalDispatch.add d0 r.func (some c) r.types =
            Except.error PyErr.valueErrorSigMismatch := by
          simp [ConditionalDispatch.add, he]
        rw [hadd] at h
        simp at h

theorem runFuncs_pure (a : List PyVal) (kw : KwArgs) :
    ∀ (l : List CondEntry) (w w' : World) (m : Bool),
      (∀ e ∈ l, IsPure e.func ∧ IsPure e.condition) →
      runFuncs l w a kw m = runFuncs l w' a kw m := by
  intro l
  induction l with
  | nil => intro w w' m _; rfl
  | cons e l ih =>
    intro w w' m h
    have hrest := fun e2 he2 => h e2 (List.mem_cons_of_mem e he2)
    have hf := (h e (List.mem_cons_self e l)).1
    have hc := (h e (List.mem_cons_self e l)).2
    cases hg : entryGate e.func e.types a kw with
    | error e2 => rw [runFuncs, hg, runFuncs, hg]
    | ok b =>
      cases b with
      | false =>
        rw [runFuncs, hg, runFuncs, hg]
        exact ih w w' m hrest
      | true =>
        rw [runFuncs, hg, runFuncs, hg, hc w w' a kw, hf w w' a kw]
        by_cases ht : truthy (e.condition.call w' a kw) = true
        · rw [if_pos ht, if_pos ht]
        · rw [if_neg ht, if_neg ht]
          exact ih w w' true hrest

theorem runNones_pure (a : List PyVal) (kw : KwArgs) :
    ∀ (l : List NoneEntry) (w w' : World),
      (∀ e ∈ l, IsPure e.func) →
      runNones l w a kw = runNones l w' a kw := by
  intro l
  induction l with
  | nil => intro w w' _; rfl
  | cons e l ih =>
    intro w w' h
    have hrest := fun e2 he2 => h e2 (List.mem_cons_of_mem e he2)
    have hf := h e (List.mem_cons_self e l)
    cases hg : entryGate e.func e.types a kw with
    | error e2 => rw [runNones, hg, runNones, hg]
    | ok b =>
      cases b with
      | false =>
        rw [runNones, hg, runNones, hg]
        exact ih w w' hrest
      | true => rw [runNones, hg, runNones, hg, hf w w' a kw]

theorem find_fires_pure (a : List PyVal) (kw : KwArgs) :
    ∀ (l : List CondEntry) (w w' : World),
      (∀ e ∈ l, IsPure e.condition) →
      l.find? (fun e => firesCond e w a kw) =
        l.find? (fun e => firesCond e w' a kw) := by
  intro l
  induction l with
  | nil => intro w w' _; rfl
  | cons e l ih =>
    intro w w' h
    have hrest := fun e2 he2 => h e2 (List.mem_cons_of_mem e he2)
    have hc := h e (List.mem_cons_self e l)
    have heq : firesCond e w a kw = firesCond e w' a kw := by
      rw [firesCond, firesCond, hc w w' a kw]
    cases hw : firesCond e w' a kw with
    | true =>
      rw [List.find?_cons_of_pos _ (by simp [heq, hw]),
        List.find?_cons_of_pos _ (by simp [hw])]
    | false =>
      rw [List.find?_cons_of_neg _ (by simp [heq, hw]),
        List.find?_cons_of_neg _ (by simp [hw])]
      exact ih w w' hrest

theorem runFuncsSt_eq (w : World) (a : List PyVal) (kw : KwArgs) :
    ∀ (l : List CondEntry) (d : ConditionalDispatch) (m : Bool),
      runFuncsSt l d w a kw m = (runFuncs l w a kw m, d) := by
  intro l
  induction l with
  | nil => intro d m; rfl
  | cons e l ih =>
    intro d m
    cases hg : entryGate e.func e.types a kw with
    | error e2 => rw [runFuncsSt, runFuncs, hg]
    | ok b =>
      cases b with
      | false =>
        rw [runFuncsSt, runFuncs, hg]
        exact ih d m
      | true =>
        rw [runFuncsSt, runFuncs, hg]
        by_cases ht : truthy (e.condition.call w a kw) = true
        · rw [if_pos ht, if_pos ht]
        · rw [if_neg ht, if_neg ht]
          exact ih d true

theorem runNonesSt_eq (w : World) (a : List PyVal) (kw : KwArgs) :
    ∀ (l : List NoneEntry) (d : ConditionalDispatch),
      runNonesSt l d w a kw = (runNones l w a kw, d) := by
  intro l
  induction l with
  | nil => intro d; rfl
  | cons e l ih =>
    intro d
    cases hg : entryGate e.func e.types a kw with
    | error e2 => rw [runNonesSt, runNones, hg]
    | ok b =>
      cases b with
      | false =>
        rw [runNonesSt, runNones, hg]
        exact ih d
      | true => rw [runNonesSt, runNones, hg]

theorem matches_types_exOk (f : PyFun) (ts : List PyType) (a : List PyVal)
    (kw : KwArgs) : exOk (matches_types f ts a kw) = exOk (arginize f a kw) := by
  rw [matches_types]
  cases ha : arginize f a kw <;> rfl

theorem arginize_exOk (f : PyFun) (a : List PyVal) (kw : KwArgs)
    (hv : (correct_argspec f).varargs = Option.none)
    (hk : (correct_argspec f).keywords = Option.none) :
    exOk (arginize f a kw) =
      exOk (kwLookupList kw ((correct_argspec f).args.drop a.length)) := by
  have hcond : ((correct_argspec f).varargs.isSome ||
      (correct_argspec f).keywords.isSome) = false := by
    rw [hv, hk]; rfl
  simp only [arginize, hcond, Bool.false_eq_true, if_false]
  cases hr : kwLookupList kw ((correct_argspec f).args.drop a.length) <;> rfl

/-- C1 (amended): for a non-variadic handler, the Type Matcher completes
(without a binder error) exactly when every formal parameter beyond the
actual positional arguments has a value among the actual named arguments —
an omitted parameter's default value is NEVER used to fill its position:
the binder raises KeyError instead, so type matching does not complete for
a call that omits a defaulted parameter. -/
theorem C1_type_gate_needs_named_values (f : PyFun) (ts : List PyType)
    (a : List PyVal) (kw : KwArgs)
    (hv : (correct_argspec f).varargs = Option.none)
    (hk : (correct_argspec f).keywords = Option.none) :
    exOk (matches_types f ts a kw) = true ↔
      ∀ n ∈ (correct_argspec f).args.drop a.length, (kwGet kw n).isSome = true := by
  rw [matches_types_exOk, arginize_exOk f a kw hv hk]
  exact kwLookupList_isOk kw _

/-- C1 (counterexample): the handler f(x, y=10) with type list [int, int]
and the call f(1): the call passes the Signature Matcher while omitting the
defaulted parameter y, yet the Type Matcher raises KeyError("y") instead of
completing — the default value does not fill the omitted position. -/
theorem C1_counterexample :
    matches_signature funXY [PyVal.int 1] [] = true
    ∧ "y" ∈ defaultedNames (correct_argspec funXY)
    ∧ matches_types funXY [PyType.intT, PyType.intT] [PyVal.int 1] [] =
        Except.error (PyErr.keyError "y") :=
  ⟨by decide, by decide, by rfl⟩

/-- C1 (witness): the amended theorem applied to f(x, y=10) with the call
f(1, y=2), where the remaining name y is supplied by a named argument, so
the type gate completes. -/
theorem C1_witness :
    exOk (matches_types funXY [PyType.intT] [PyVal.int 1] [("y", PyVal.int 2)]) = true :=
  (C1_type_gate_needs_named_values funXY [PyType.intT] [PyVal.int 1]
    [("y", PyVal.int 2)] rfl rfl).mpr (by decide)

/-- C2: the claim (and the comment inside matches_signature itself) says a
remaining formal parameter not covered by a named argument and not in the
defaulted set must yield no-match.  The code instead compares the set of
remaining NAMES against the set of default VALUES with a proper-superset
test, so the handler f(x, y=10) and the call f(y=5) — where the required
parameter x is neither covered nor defaulted — is (wrongly) accepted.  A
handler with no defaults at all still rejects a too-short call, and a
trailing defaulted parameter may indeed be omitted. -/
theorem C2_accepts_call_missing_required_param :
    matches_signature funXY [] [("y", PyVal.int 5)] = true
    ∧ "x" ∈ (correct_argspec funXY).args
    ∧ kwGet [("y", PyVal.int 5)] "x" = Option.none
    ∧ "x" ∉ defaultedNames (correct_argspec funXY)
    ∧ matches_signature ⟨⟨["x", "y"], Option.none, Option.none, Option.none⟩,
        false, retNone⟩ [PyVal.int 1] [] = false :=
  ⟨by decide, by decide, by rfl, by decide, by decide⟩

/-- C3 (counterexample): handler f(x=1) and condition c(x=2) have equal
spec-level signature tuples (same names, same defaulted set, same variadic
flags), yet registration raises, because the code compares the full
argspecs — default VALUES included. -/
theorem C3_counterexample :
    specSigTuple funD1 = specSigTuple funD2
    ∧ ConditionalDispatch.add emptyCD funD1 (some funD2) Option.none =
        Except.error PyErr.valueErrorSigMismatch :=
  ⟨by decide, by rfl⟩

/-- C3 (amended): registration with a condition appends a conditioned entry
if and only if the handler's and the condition's full introspected argspecs
(parameter names, variadic-positional name, variadic-named name, and the
tuple of default VALUES), after receiver-stripping, are equal; when they
differ it raises and returns no registry, so the caller's registry value is
unchanged (atomic failure). -/
theorem C3_register_compares_full_argspec (d : ConditionalDispatch) (f c : PyFun)
    (t : Option (List PyType)) :
    (correct_argspec f = correct_argspec c →
      ConditionalDispatch.add d f (some c) t =
        Except.ok { d with funcs := d.funcs ++ [⟨f, c, t⟩] })
    ∧ (correct_argspec f ≠ correct_argspec c →
      ConditionalDispatch.add d f (some c) t =
        Except.error PyErr.valueErrorSigMismatch) := by
  constructor
  · intro he; simp [ConditionalDispatch.add, he]
  · intro he; simp [ConditionalDispatch.add, he]

/-- C3 (witness): the amended theorem applied to a matching pair (appended)
and to the pair f(x=1)/c(x=2) (rejected). -/
theorem C3_witness :
    ConditionalDispatch.add emptyCD funD1 (some funD1) Option.none =
      Except.ok { emptyCD with funcs := [⟨funD1, funD1, Option.none⟩] }
    ∧ ConditionalDispatch.add emptyCD funD1 (some funD2) Option.none =
        Except.error PyErr.valueErrorSigMismatch :=
  ⟨(C3_register_compares_full_argspec emptyCD funD1 funD1 Option.none).1 rfl,
   (C3_register_compares_full_argspec emptyCD funD1 funD2 Option.none).2 (by decide)⟩

/-- C6: the Argument Binder fails (the code's ValueError, the spec's
UnsupportedSignatureError) for every callable accepting variadic positional
or variadic named arguments; for every other callable, whenever each
remaining formal name has a named-argument value, it returns the actual
positional arguments followed by those named values in formal declaration
order. -/
theorem C6_binder (f : PyFun) (a : List PyVal) (kw : KwArgs) :
    (((correct_argspec f).varargs.isSome ||
        (correct_argspec f).keywords.isSome) = true →
      arginize f a kw = Except.error PyErr.valueErrorArginize)
    ∧ ((correct_argspec f).varargs = Option.none →
       (correct_argspec f).keywords = Option.none →
       (∀ n ∈ (correct_argspec f).args.drop a.length, (kwGet kw n).isSome = true) →
       arginize f a kw =
         Except.ok (a ++ ((correct_argspec f).args.drop a.length).filterMap
           (fun n => kwGet kw n))) := by
  constructor
  · intro h; simp [arginize, h]
  · intro hv hk hall
    have hcond : ((correct_argspec f).varargs.isSome ||
        (correct_argspec f).keywords.isSome) = false := by
      rw [hv, hk]; rfl
    simp only [arginize, hcond, Bool.false_eq_true, if_false]
    rw [kwLookupList_all_some kw _ hall]

/-- C6 (witness): the binder applied to f(*a) (fails) and to f(x, y=10)
called as f(1, y=2) (returns [1, 2]). -/
theorem C6_witness :
    arginize funVar [] [] = Except.error PyErr.valueErrorArginize
    ∧ arginize funXY [PyVal.int 1] [("y", PyVal.int 2)] =
        Except.ok [PyVal.int 1, PyVal.int 2] :=
  ⟨(C6_binder funVar [] []).1 rfl,
   ((C6_binder funXY [PyVal.int 1] [("y", PyVal.int 2)]).2 rfl rfl
     (by decide)).trans (by rfl)⟩

/-- C10: the Type Matcher pairs constraints with bound arguments by a
truncating zip: when binding succeeds, the result is the conjunction of the
paired isinstance checks; constraints beyond the bound-argument count are
ignored entirely (the result is unchanged by truncating the constraint list
to the bound length), and an empty bound list satisfies every constraint
list. -/
theorem C10_truncating_zip (f : PyFun) (ts : List PyType) (a : List PyVal)
    (kw : KwArgs) (bound : List PyVal)
    (hb : arginize f a kw = Except.ok bound) :
    matches_types f ts a kw =
      Except.ok ((bound.zip ts).all (fun p => isinstance p.1 p.2))
    ∧ matches_types f ts a kw = matches_types f (ts.take bound.length) a kw
    ∧ (bound = [] → matches_types f ts a kw = Except.ok true) := by
  have h1 : matches_types f ts a kw =
      Except.ok ((bound.zip ts).all (fun p => isinstance p.1 p.2)) := by
    rw [matches_types, hb]
  refine ⟨h1, ?_, ?_⟩
  · rw [h1, matches_types, hb, zip_take_self bound ts]
  · intro hbe
    subst hbe
    rw [h1]
    rfl

/-- C10 (witness): f(x, y=10) called as f(1, y=2) binds to [1, 2]; a
three-element constraint list [int, int, str] is truncated to two and the
gate passes. -/
theorem C10_witness :
    matches_types funXY [PyType.intT, PyType.intT, PyType.strT] [PyVal.int 1]
      [("y", PyVal.int 2)] = Except.ok true := by
  have h := C10_truncating_zip funXY [PyType.intT, PyType.intT, PyType.strT]
    [PyVal.int 1] [("y", PyVal.int 2)] [PyVal.int 1, PyVal.int 2] (by rfl)
  exact h.1.trans (by rfl)

/-- C4 (amended): when dispatch falls through both entry lists, invoke fails
with exactly one of two distinguishable errors, characterized exactly:
NoMatchingSignatureError (the first TypeError) precisely when every entry's
gate evaluated to a non-passing result without raising; and
NoSatisfiedConditionError (the second TypeError) precisely when every
conditioned gate evaluated without raising and no conditioned entry fired,
at least one conditioned gate passed, and every unconditioned gate
evaluated to a non-passing result without raising.  (When an entry's type
gate raises a binder error — KeyError or ValueError — invoke instead
propagates that error, which is neither of the two; see the
counterexample.) -/
theorem C4_two_dispatch_errors (d : ConditionalDispatch) (w : World)
    (a : List PyVal) (kw : KwArgs) :
    (dcall d w a kw = Except.error PyErr.typeErrorNoMatch ↔
      (∀ e ∈ d.funcs, entryGate e.func e.types a kw = Except.ok false)
      ∧ (∀ e ∈ d.nones, entryGate e.func e.types a kw = Except.ok false))
    ∧ (dcall d w a kw = Except.error PyErr.typeErrorNoCondition ↔
      (∀ e ∈ d.funcs, exOk (entryGate e.func e.types a kw) = true ∧
        firesCond e w a kw = false)
      ∧ (∃ e ∈ d.funcs, entryGate e.func e.types a kw = Except.ok true)
      ∧ (∀ e ∈ d.nones, entryGate e.func e.types a kw = Except.ok false)) := by
  constructor
  · constructor
    · intro h
      cases hr : runFuncs d.funcs w a kw false with
      | error err =>
        rw [dcall, hr] at h
        have herr : err = PyErr.typeErrorNoMatch := Except.error.inj h
        subst herr
        obtain ⟨e, _, hg⟩ := runFuncs_error_mem w a kw d.funcs false _ hr
        rcases entryGate_error_shape _ _ _ _ _ hg with h1 | ⟨n, h1⟩ <;> simp at h1
      | ok res =>
        cases res with
        | inl v => rw [dcall, hr] at h; simp at h
        | inr matched =>
          cases hn : runNones d.nones w a kw with
          | error err =>
            rw [dcall, hr, hn] at h
            have herr : err = PyErr.typeErrorNoMatch := Except.error.inj h
            subst herr
            obtain ⟨e, _, hg⟩ := runNones_error_mem w a kw d.nones _ hn
            rcases entryGate_error_shape _ _ _ _ _ hg with h1 | ⟨n, h1⟩ <;> simp at h1
          | ok o =>
            cases o with
            | some v => rw [dcall, hr, hn] at h; simp at h
            | none =>
              cases matched with
              | true =>
                rw [dcall, hr, hn] at h
                have : PyErr.typeErrorNoCondition = PyErr.typeErrorNoMatch :=
                  Except.error.inj h
                simp at this
              | false =>
                have hf := (runFuncs_fallthrough w a kw d.funcs false false).mp hr
                have hn2 := (runNones_fallthrough w a kw d.nones).mp hn
                have hany : d.funcs.any (fun e => gateB e.func e.types a kw) = false := by
                  cases hx : d.funcs.any (fun e => gateB e.func e.types a kw) with
                  | false => rfl
                  | true =>
                    have := hf.2
                    rw [hx] at this
                    simp at this
                constructor
                · intro e he
                  have hok := (hf.1 e he).1
                  have hgb : gateB e.func e.types a kw = false := by
                    cases hy : gateB e.func e.types a kw with
                    | false => rfl
                    | true =>
                      have : d.funcs.any (fun e => gateB e.func e.types a kw) = true :=
                        List.any_eq_true.mpr ⟨e, he, hy⟩
                      rw [hany] at this
                      exact absurd this (by simp)
                  exact (gate_ok_false_iff _ _ _ _).mpr ⟨hok, hgb⟩
                · intro e he
                  have hp := hn2 e he
                  have hgb : gateB e.func e.types a kw = false := by
                    have := hp.2
                    rw [firesNone] at this
                    exact this
                  exact (gate_ok_false_iff _ _ _ _).mpr ⟨hp.1, hgb⟩
    · intro hrhs
      obtain ⟨hfa, hna⟩ := hrhs
      have hany : d.funcs.any (fun e => gateB e.func e.types a kw) = false := by
        cases hx : d.funcs.any (fun e => gateB e.func e.types a kw) with
        | false => rfl
        | true =>
          obtain ⟨e, he, hgb⟩ := List.any_eq_true.mp hx
          have := ((gate_ok_false_iff _ _ _ _).mp (hfa e he)).2
          rw [this] at hgb
          exact absurd hgb (by simp)
      have hf : runFuncs d.funcs w a kw false = Except.ok (Sum.inr false) := by
        apply (runFuncs_fallthrough w a kw d.funcs false false).mpr
        constructor
        · intro e he
          have hg := (gate_ok_false_iff _ _ _ _).mp (hfa e he)
          refine ⟨hg.1, ?_⟩
          rw [firesCond, hg.2]
          rfl
        · rw [hany]
          rfl
      have hn : runNones d.nones w a kw = Except.ok Option.none := by
        apply (runNones_fallthrough w a kw d.nones).mpr
        intro e he
        have hg := (gate_ok_false_iff _ _ _ _).mp (hna e he)
        refine ⟨hg.1, ?_⟩
        rw [firesNone]
        exact hg.2
      rw [dcall, hf, hn]
      rfl
  · constructor
    · intro h
      cases hr : runFuncs d.funcs w a kw false with
      | error err =>
        rw [dcall, hr] at h
        have herr : err = PyErr.typeErrorNoCondition := Except.error.inj h
        subst herr
        obtain ⟨e, _, hg⟩ := runFuncs_error_mem w a kw d.funcs false _ hr
        rcases entryGate_error_shape _ _ _ _ _ hg with h1 | ⟨n, h1⟩ <;> simp at h1
      | ok res =>
        cases res with
        | inl v => rw [dcall, hr] at h; simp at h
        | inr matched =>
          cases hn : runNones d.nones w a kw with
          | error err =>
            rw [dcall, hr, hn] at h
            have herr : err = PyErr.typeErrorNoCondition := Except.error.inj h
            subst herr
            obtain ⟨e, _, hg⟩ := runNones_error_mem w a kw d.nones _ hn
            rcases entryGate_error_shape _ _ _ _ _ hg with h1 | ⟨n, h1⟩ <;> simp at h1
          | ok o =>
            cases o with
            | some v => rw [dcall, hr, hn] at h; simp at h
            | none =>
              cases matched with
              | false =>
                rw [dcall, hr, hn] at h
                have : PyErr.typeErrorNoMatch = PyErr.typeErrorNoCondition :=
                  Except.error.inj h
                simp at this
              | true =>
                have hf := (runFuncs_fallthrough w a kw d.funcs false true).mp hr
                have hn2 := (runNones_fallthrough w a kw d.nones).mp hn
                have hany : d.funcs.any (fun e => gateB e.func e.types a kw) = true := by
                  have := hf.2
                  cases hx : d.funcs.any (fun e => gateB e.func e.types a kw) with
                  | true => rfl
                  | false =>
                    rw [hx] at this
                    simp at this
                obtain ⟨e0, he0, hgb0⟩ := List.any_eq_true.mp hany
                refine ⟨hf.1, ⟨e0, he0, (gateB_eq_true_iff _ _ _ _).mp hgb0⟩, ?_⟩
                intro e he
                have hp := hn2 e he
                have hgb : gateB e.func e.types a kw = false := by
                  have := hp.2
                  rw [firesNone] at this
                  exact this
                exact (gate_ok_false_iff _ _ _ _).mpr ⟨hp.1, hgb⟩
    · intro hrhs
      obtain ⟨hall, ⟨e0, he0, hg0⟩, hna⟩ := hrhs
      have hany : d.funcs.any (fun e => gateB e.func e.types a kw) = true :=
        List.any_eq_true.mpr ⟨e0, he0, (gateB_eq_true_iff _ _ _ _).mpr hg0⟩
      have hf : runFuncs d.funcs w a kw false = Except.ok (Sum.inr true) := by
        apply (runFuncs_fallthrough w a kw d.funcs false true).mpr
        refine ⟨hall, ?_⟩
        rw [hany]
        rfl
      have hn : runNones d.nones w a kw = Except.ok Option.none := by
        apply (runNones_fallthrough w a kw d.nones).mpr
        intro e he
        have hg := (gate_ok_false_iff _ _ _ _).mp (hna e he)
        refine ⟨hg.1, ?_⟩
        rw [firesNone]
        exact hg.2
      rw [dcall, hf, hn]
      rfl

/-- C4 (counterexample): a registry whose single (unconditioned) entry
pairs the handler f(x=10) with the type list [int]; on the empty call its
signature gate passes but the type gate raises KeyError("x"), so no handler
is invoked and invoke fails with the KeyError — which is neither
NoMatchingSignatureError nor NoSatisfiedConditionError. -/
theorem C4_counterexample :
    dcall dC4 0 [] [] = Except.error (PyErr.keyError "x")
    ∧ PyErr.keyError "x" ≠ PyErr.typeErrorNoMatch
    ∧ PyErr.keyError "x" ≠ PyErr.typeErrorNoCondition :=
  ⟨by rfl, by decide, by decide⟩

/-- C5 (amended): for every registry built by an interleaved sequence of
successful registrations, conditioned entries end up in self.funcs and
unconditioned entries in self.nones, each in insertion order — so all
conditioned entries are considered strictly before all unconditioned
entries — and, provided every entry's gate evaluates without a binder
error on this call, invoke returns the result of the first conditioned
entry whose gates pass and whose condition returns a truthy value, else the
result of the first unconditioned entry whose gates pass, else the
appropriate dispatch error; the result is that of the first firing entry,
so no later entry influences the outcome.  (When some gate raises, invoke
instead propagates the first such error in consideration order; see the
counterexample.) -/
theorem C5_first_match_wins (reqs : List RegReq) (d : ConditionalDispatch)
    (w : World) (a : List PyVal) (kw : KwArgs)
    (hb : buildE emptyCD reqs = Except.ok d)
    (hok1 : ∀ e ∈ d.funcs, exOk (entryGate e.func e.types a kw) = true)
    (hok2 : ∀ e ∈ d.nones, exOk (entryGate e.func e.types a kw) = true) :
    d.funcs = condOf reqs ∧ d.nones = nonesOf reqs
    ∧ dcall d w a kw =
      (match d.funcs.find? (fun e => firesCond e w a kw) with
       | some e => Except.ok (e.func.call w a kw)
       | Option.none =>
         match d.nones.find? (fun e => firesNone e a kw) with
         | some e => Except.ok (e.func.call w a kw)
         | Option.none =>
           Except.error (if d.funcs.any (fun e => gateB e.func e.types a kw)
             then PyErr.typeErrorNoCondition else PyErr.typeErrorNoMatch)) := by
  obtain ⟨h1, h2⟩ := buildE_ok reqs emptyCD d hb
  refine ⟨by simpa using h1, by simpa using h2, ?_⟩
  rw [dcall, runFuncs_find w a kw d.funcs false hok1]
  cases hf : d.funcs.find? (fun e => firesCond e w a kw) with
  | some e => rfl
  | none =>
    rw [runNones_find w a kw d.nones hok2]
    cases hn : d.nones.find? (fun e => firesNone e a kw) with
    | some e => rfl
    | none =>
      simp only [Bool.false_or]
      cases hany : d.funcs.any (fun e => gateB e.func e.types a kw) with
      | true => rfl
      | false => rfl

/-- C5 (counterexample): the registry [entC5a, entC5b] (both conditioned,
registered successfully in that order).  On the empty call the second entry
fires — its gates pass and its condition is truthy, so the claim says its
handler's result 42 is returned — but the first entry's type gate raises
KeyError("x"), which invoke propagates instead. -/
theorem C5_counterexample :
    buildE emptyCD [⟨funXdef, some condXdef, some [PyType.intT]⟩,
        ⟨funG, some condXdef, Option.none⟩] = Except.ok dC5
    ∧ firesCond entC5b 0 [] [] = true
    ∧ dcall dC5 0 [] [] = Except.error (PyErr.keyError "x")
    ∧ dcall dC5 0 [] [] ≠ Except.ok (PyVal.int 42) :=
  ⟨by rfl, by rfl, by rfl, by decide⟩

/-- C5 (witness): the amended theorem applied to the one-entry registry
built from registering g(x=10) with a truthy condition and no types: the
empty call makes that first (and only) entry fire, returning 42. -/
theorem C5_witness :
    dcall ⟨[entC5b], []⟩ 0 [] [] = Except.ok (PyVal.int 42) := by
  have h := C5_first_match_wins [⟨funG, some condXdef, Option.none⟩]
    ⟨[entC5b], []⟩ 0 [] [] (by rfl)
    (by
      intro e he
      have he2 : e ∈ [entC5b] := he
      rw [List.mem_singleton] at he2
      subst he2
      rfl)
    (by
      intro e he
      have he2 : e ∈ ([] : List NoneEntry) := he
      simp at he2)
  exact h.2.2.trans (by rfl)

/-- C7: for a fixed registry whose handlers and conditions are pure (their
results do not depend on the ambient state), dispatch is a deterministic
function of the registry and the call arguments: two invocations with
identical positional and named arguments yield the same result, and the
same conditioned entry is selected. -/
theorem C7_deterministic_dispatch (d : ConditionalDispatch) (w w' : World)
    (a : List PyVal) (kw : KwArgs)
    (h1 : ∀ e ∈ d.funcs, IsPure e.func ∧ IsPure e.condition)
    (h2 : ∀ e ∈ d.nones, IsPure e.func) :
    dcall d w a kw = dcall d w' a kw
    ∧ d.funcs.find? (fun e => firesCond e w a kw) =
        d.funcs.find? (fun e => firesCond e w' a kw) := by
  constructor
  · rw [dcall, dcall, runFuncs_pure a kw d.funcs w w' false h1,
      runNones_pure a kw d.nones w w' h2]
  · exact find_fires_pure a kw d.funcs w w' (fun e he => (h1 e he).2)

/-- C7 (witness): determinism applied to the pure one-entry registry at two
different ambient states. -/
theorem C7_witness :
    dcall dC7 0 [PyVal.int 3] [] = dcall dC7 1 [PyVal.int 3] [] :=
  (C7_deterministic_dispatch dC7 0 1 [PyVal.int 3] []
    (by
      intro e he
      have he2 : e ∈ [(⟨funPure, condPure, Option.none⟩ : CondEntry)] := he
      rw [List.mem_singleton] at he2
      subst he2
      exact ⟨fun _ _ _ _ => rfl, fun _ _ _ _ => rfl⟩)
    (by
      intro e he
      have he2 : e ∈ ([] : List NoneEntry) := he
      simp at he2)).1

/-- C8: every invocation leaves the registry unchanged — in the
state-threaded embedding of __call__, the registry value carried through
the two loops and returned at the end equals the input registry, whether
dispatch succeeds, raises a dispatch error, or propagates a gate error; and
the threaded result agrees with the direct embedding. -/
theorem C8_registry_unchanged (d : ConditionalDispatch) (w : World)
    (a : List PyVal) (kw : KwArgs) :
    (dcallSt d w a kw).2 = d ∧ (dcallSt d w a kw).1 = dcall d w a kw := by
  rw [dcallSt, runFuncsSt_eq w a kw d.funcs d false]
  cases hr : runFuncs d.funcs w a kw false with
  | error err => exact ⟨rfl, by rw [dcall, hr]⟩
  | ok res =>
    cases res with
    | inl v => exact ⟨rfl, by rw [dcall, hr]⟩
    | inr matched =>
      dsimp only
      rw [runNonesSt_eq w a kw d.nones d]
      cases hn : runNones d.nones w a kw with
      | error err => exact ⟨rfl, by rw [dcall, hr, hn]⟩
      | ok o =>
        cases o with
        | some v => exact ⟨rfl, by rw [dcall, hr, hn]⟩
        | none =>
          cases matched with
          | true => exact ⟨rfl, by rw [dcall, hr, hn]; rfl⟩
          | false => exact ⟨rfl, by rw [dcall, hr, hn]; rfl⟩

/-- C9: registration with no condition performs no validation — for every
callable, variadic ones included, add succeeds and appends to the
unconditioned list; and when such a variadic entry carries a type list, its
gate raises the binder's ValueError from inside dispatch whenever its
signature gate passes, so invoke propagates that error (shown for the
registry holding that entry). -/
theorem C9_none_condition_unvalidated (d : ConditionalDispatch) (f : PyFun)
    (t : Option (List PyType)) (ts : List PyType) (w : World) (a : List PyVal)
    (kw : KwArgs) :
    ConditionalDispatch.add d f Option.none t =
      Except.ok { d with nones := d.nones ++ [⟨f, t⟩] }
    ∧ (((correct_argspec f).varargs.isSome ||
        (correct_argspec f).keywords.isSome) = true →
      matches_signature f a kw = true →
      entryGate f (some ts) a kw = Except.error PyErr.valueErrorArginize
      ∧ dcall ⟨[], [⟨f, some ts⟩]⟩ w a kw =
          Except.error PyErr.valueErrorArginize) := by
  constructor
  · rfl
  · intro hvar hsig
    have ha : arginize f a kw = Except.error PyErr.valueErrorArginize := by
      simp [arginize, hvar]
    have hgate : entryGate f (some ts) a kw =
        Except.error PyErr.valueErrorArginize := by
      have hmt : matches_types f ts a kw =
          Except.error PyErr.valueErrorArginize := by
        rw [matches_types, ha]
      unfold entryGate
      rw [if_pos hsig]
      exact hmt
    refine ⟨hgate, ?_⟩
    have hrn : runNones [(⟨f, some ts⟩ : NoneEntry)] w a kw =
        Except.error PyErr.valueErrorArginize := by
      rw [runNones, hgate]
    rw [dcall, hrn]
    rfl

/-- C9 (witness): registering the variadic f(*a) with no condition
succeeds, and dispatching the empty call against the registry holding that
entry with a type list propagates the binder's ValueError. -/
theorem C9_witness :
    ConditionalDispatch.add emptyCD funVar Option.none Option.none =
      Except.ok ⟨[], [⟨funVar, Option.none⟩]⟩
    ∧ dcall ⟨[], [⟨funVar, some []⟩]⟩ 0 [] [] =
        Except.error PyErr.valueErrorArginize :=
  ⟨(C9_none_condition_unvalidated emptyCD funVar Option.none [] 0 [] []).1,
   ((C9_none_condition_unvalidated emptyCD funVar Option.none [] 0 [] []).2
     rfl (by decide)).2⟩
